import Mathlib

/-!
Verification of the payment-wizard frontend (src/frontend/src/App.jsx and the
Stripe flow variant) against its specification.  JavaScript string/number
behaviour is modelled explicitly: `""` is falsy, `parseFloat`/`parseInt`
return `none` for NaN, comparisons against NaN are false, and `x || y` on
numbers yields `y` exactly when `x` is `0`.
-/

namespace PaymentGateway

/-- JS truthiness of a string: only the empty string is falsy. -/
def jsTruthy (s : String) : Bool := s ≠ ""

/-- JS `a || b` on non-negative numbers: `b` exactly when `a = 0`. -/
def jsOrNat (a b : Nat) : Nat := if a = 0 then b else a

/-- `parseInt` on a single digit character. -/
def charToDigit (c : Char) : Nat := c.toNat - 48

/-- Numeric value of a digit list (most significant first). -/
def natOfDigits (l : List Char) : Nat := l.foldl (fun a c => a * 10 + charToDigit c) 0

/-- Characters matched by the JS `\s` class (ASCII part). -/
def jsIsSpace (c : Char) : Bool :=
  c = ' ' ∨ c = '\t' ∨ c = '\n' ∨ c = '\r' ∨ c = '\x0b' ∨ c = '\x0c'

/-- `card_number.replace(/\s/g, '')` from validateCardDetails (App.jsx line 88). -/
def stripSpaces (s : String) : String := ⟨s.toList.filter (fun c => ! jsIsSpace c)⟩

/-- Leading sign of a JS numeric literal; returns the sign and the rest. -/
def parseSign : List Char → Int × List Char
  | '-' :: t => (-1, t)
  | '+' :: t => (1, t)
  | l => (1, l)

/-- A finite JS number kept in exact unnormalised decimal form: the value is
`num / 10 ^ denPow`.  Keeping the representation in integers (instead of a
normalised `ℚ`) makes every comparison kernel-computable; `toRat` below gives
the real value. -/
structure JsNumber where
  num : Int
  denPow : Nat
deriving DecidableEq, Repr

/-- The rational value of a `JsNumber`. -/
def JsNumber.toRat (x : JsNumber) : ℚ := (x.num : ℚ) / (10 : ℚ) ^ x.denPow

/-- Apply a parsed exponent to a mantissa. -/
def applyExp (x : JsNumber) (esgn : Int) (e : Nat) : JsNumber :=
  if 0 ≤ esgn then ⟨x.num * (10 : Int) ^ e, x.denPow⟩ else ⟨x.num, x.denPow + e⟩

/-- Parse the `[digits].[digits][eE][+-]digits` body of a JS numeric literal,
returning the value and the unconsumed rest; `none` when no digits at all. -/
def parseDecimalBody (l : List Char) : Option (JsNumber × List Char) :=
  let ipl := l.span Char.isDigit
  let fpl := match ipl.2 with
    | '.' :: t => t.span Char.isDigit
    | l2 => ([], l2)
  if ipl.1 = [] ∧ fpl.1 = [] then none
  else
    let mantissa : JsNumber :=
      ⟨(natOfDigits ipl.1 * 10 ^ fpl.1.length + natOfDigits fpl.1 : Nat), fpl.1.length⟩
    match fpl.2 with
    | e :: t =>
      if e = 'e' ∨ e = 'E' then
        let esl := parseSign t
        let edl := esl.2.span Char.isDigit
        if edl.1 = [] then some (mantissa, fpl.2)
        else some (applyExp mantissa esl.1 (natOfDigits edl.1), edl.2)
      else some (mantissa, fpl.2)
    | [] => some (mantissa, [])

/-- Model of JS `parseFloat`: skip leading whitespace, read an optional sign
and a decimal body, ignoring any trailing garbage; `none` models NaN (no
digits at all). -/
def jsParseFloat (s : String) : Option JsNumber :=
  let l := s.toList.dropWhile (fun c => jsIsSpace c)
  let sl := parseSign l
  (parseDecimalBody sl.2).map fun br => ⟨sl.1 * br.1.num, br.1.denPow⟩

/-- Model of JS `Number()` coercion of a string (as used by arithmetic on a
string operand): the whole trimmed string must be a numeric literal; the empty
string coerces to 0; `none` models NaN. -/
def jsToNumber (s : String) : Option JsNumber :=
  let l := (((s.toList.dropWhile (fun c => jsIsSpace c)).reverse.dropWhile
      (fun c => jsIsSpace c)).reverse)
  if l = [] then some ⟨0, 0⟩
  else
    let sl := parseSign l
    match parseDecimalBody sl.2 with
    | some br => if br.2 = [] then some ⟨sl.1 * br.1.num, br.1.denPow⟩ else none
    | none => none

/-- JS `Math.round`: nearest integer, half toward positive infinity; on the
exact value `num / 10 ^ denPow` this is `⌊(2*num + 10^denPow) / (2*10^denPow)⌋`
with flooring division. -/
def jsRound (x : JsNumber) : Int :=
  Int.fdiv (2 * x.num + (10 : Int) ^ x.denPow) (2 * (10 : Int) ^ x.denPow)

/-- Model of JS `parseInt` (base 10): skip whitespace, optional sign, leading
digits; `none` models NaN. -/
def jsParseInt (s : String) : Option Int :=
  let l := s.toList.dropWhile (fun c => jsIsSpace c)
  let sl := parseSign l
  let dl := sl.2.span Char.isDigit
  if dl.1 = [] then none else some (sl.1 * (natOfDigits dl.1 : Int))

/-- JS `x <= 0` where `x` may be NaN: NaN comparisons are false.  Since the
denominator `10 ^ denPow` is positive, the sign of the value is the sign of
the numerator (see `jsLe0_correct`). -/
def jsLe0 : Option JsNumber → Bool
  | none => false
  | some x => x.num ≤ 0

/-- JS `a < b` on a possibly-NaN left operand. -/
def jsLt (a : Option Int) (b : Int) : Bool :=
  match a with
  | none => false
  | some x => x < b

/-- JS `a === b` on a possibly-NaN left operand. -/
def jsEqInt (a : Option Int) (b : Int) : Bool :=
  match a with
  | none => false
  | some x => x = b

/-! ### Card number formatter (App.jsx lines 43–56)

`handlePaymentInputChange` strips non-digits, inserts a space after every
complete 4-digit group that is followed by another digit (the regex
`(\d{4})(?=\d)`), and truncates the result to 19 characters. -/

/-- Split a list into consecutive chunks of 4 (last chunk possibly shorter).
Structural recursion, so that it evaluates inside the kernel. -/
def chunk4 : List Char → List (List Char)
  | [] => []
  | [a] => [[a]]
  | [a, b] => [[a, b]]
  | [a, b, c] => [[a, b, c]]
  | a :: b :: c :: d :: rest => [a, b, c, d] :: chunk4 rest

theorem chunk4_nil : chunk4 [] = [] := rfl

theorem chunk4_cons {l : List Char} (h : l ≠ []) :
    chunk4 l = l.take 4 :: chunk4 (l.drop 4) := by
  match l with
  | [] => exact absurd rfl h
  | [a] => rfl
  | [a, b] => rfl
  | [a, b, c] => rfl
  | a :: b :: c :: d :: rest => rfl

/-- The card-number formatter of `handlePaymentInputChange`. -/
def formatCardNumber (raw : String) : String :=
  ⟨(List.intercalate [' '] (chunk4 (raw.toList.filter Char.isDigit))).take 19⟩

/-! ### Luhn check (App.jsx lines 96–105)

```
let arr = (num + '').split('').reverse().map(x => parseInt(x));
let lastDigit = arr.splice(0, 1)[0];
let sum = arr.reduce((acc, val, i) =>
  (i % 2 !== 0 ? acc + val : acc + ((val * 2) % 9) || 9), 0);
sum += lastDigit;
return sum % 10 === 0;
```
Note the JS operator precedence: the reduce body parses as
`i % 2 !== 0 ? acc + val : ((acc + ((val * 2) % 9)) || 9)`. -/

/-- One step of the source's `reduce` over the reversed remainder. -/
def luhnStep (acc i v : Nat) : Nat :=
  if i % 2 ≠ 0 then acc + v else jsOrNat (acc + (v * 2) % 9) 9

/-- The source's indexed `reduce`. -/
def luhnFold (acc i : Nat) : List Nat → Nat
  | [] => acc
  | v :: rest => luhnFold (luhnStep acc i v) (i + 1) rest

/-- `luhnCheck` exactly as written in validateCardDetails. -/
def luhnCheck (num : String) : Bool :=
  match num.toList.reverse.map charToDigit with
  | [] => false
  | last :: rest => (luhnFold 0 0 rest + last) % 10 = 0

/-! ### The specification's Luhn computation (spec §4.3 step 3, claim C1)

The spec describes: reverse the digits, hold out the first (rightmost) digit,
double every digit at an odd 0-indexed position of the reversed remainder
(subtracting 9 when the doubled value exceeds 9), leave the others as-is, and
sum everything. -/

/-- Double a digit, subtracting 9 when the result exceeds 9. -/
def luhnDouble (v : Nat) : Nat := if v * 2 > 9 then v * 2 - 9 else v * 2

/-- Sum of the reversed remainder per the spec's words: digits at odd
0-indexed positions are doubled (with the subtract-9 rule), the rest kept. -/
def specRemainderSum (i : Nat) : List Nat → Nat
  | [] => 0
  | v :: rest => (if i % 2 = 1 then luhnDouble v else v) + specRemainderSum (i + 1) rest

/-- The checksum described by the specification sentence quoted in claim C1. -/
def specLuhnSum (num : String) : Nat :=
  match num.toList.reverse.map charToDigit with
  | [] => 0
  | last :: rest => specRemainderSum 0 rest + last

/-! ### What the source actually computes (amended claim C1)

The source doubles the digits at *even* 0-indexed positions of the reversed
remainder, maps a doubled value through `% 9` (so a doubled 9 contributes 0
rather than 9), and—because of the `|| 9`—replaces a running total that is
still 0 after a doubled position by 9.  Written with an explicit
doubled-position flag rather than the source's index arithmetic: -/

/-- Accumulating sum with a flag telling whether the current position is a
doubled one; positions alternate starting from doubled. -/
def amendedRemainderSum (acc : Nat) (doubled : Bool) : List Nat → Nat
  | [] => acc
  | v :: rest =>
      let acc' := if doubled then jsOrNat (acc + (v * 2) % 9) 9 else acc + v
      amendedRemainderSum acc' (! doubled) rest

/-- The checksum value the code's fold computes. -/
def amendedLuhnSum (num : String) : Nat :=
  match num.toList.reverse.map charToDigit with
  | [] => 0
  | last :: rest => amendedRemainderSum 0 true rest + last

/-! ### Wizard data model (App.jsx lines 8–29) -/

/-- The identity fields held in `formData`. -/
structure FormData where
  full_name : String
  email : String
  phone : String
  amount : String
deriving DecidableEq, Repr

/-- The card/method fields held in `paymentData`. -/
structure PaymentData where
  payment_method : String
  card_number : String
  expiry_month : String
  expiry_year : String
  cvv : String
  cardholder_name : String
deriving DecidableEq, Repr

/-- The component state: wizard step, the two field groups, busy flag and the
transient message. -/
structure AppState where
  step : Nat
  formData : FormData
  paymentData : PaymentData
  loading : Bool
  message : String
  messageType : String
deriving DecidableEq, Repr

/-- `useState` initial value of `formData`. -/
def initialFormData : FormData := ⟨"", "", "", ""⟩

/-- `useState` initial value of `paymentData`. -/
def initialPaymentData : PaymentData := ⟨"visa", "", "", "", "", ""⟩

/-- The component's mount state. -/
def initialState : AppState :=
  { step := 1, formData := initialFormData, paymentData := initialPaymentData,
    loading := false, message := "", messageType := "" }

/-! ### Local validators (App.jsx lines 65–133) -/

/-- `validateBasicInfo` (lines 65–77): returns whether validation passed and
the state after its message updates. -/
def validateBasicInfo (st : AppState) : Bool × AppState :=
  if ¬ (jsTruthy st.formData.full_name ∧ jsTruthy st.formData.email ∧
        jsTruthy st.formData.phone ∧ jsTruthy st.formData.amount) then
    (false, { st with message := "Please fill in all fields", messageType := "error" })
  else if jsLe0 (jsParseFloat st.formData.amount) then
    (false, { st with message := "Amount must be greater than 0", messageType := "error" })
  else
    (true, st)

/-- The presence check on card fields (App.jsx lines 81 and 206). -/
def presenceCheck (p : PaymentData) : Bool :=
  jsTruthy p.card_number ∧ jsTruthy p.expiry_month ∧ jsTruthy p.expiry_year ∧ jsTruthy p.cvv

/-- The digit-length gate of validateCardDetails (lines 88–93):
`cardNumber.length < 13 || cardNumber.length > 19` rejects. -/
def cardLengthCheck (cardNumber : String) : Bool :=
  13 ≤ cardNumber.length ∧ cardNumber.length ≤ 19

/-- The expiry test of validateCardDetails (lines 114–125), parameterised by
the current year and month; NaN comparisons are false, as in JS. -/
def expiryExpired (p : PaymentData) (curYear curMonth : Int) : Bool :=
  jsLt (jsParseInt p.expiry_year) curYear ∨
    (jsEqInt (jsParseInt p.expiry_year) curYear ∧ jsLt (jsParseInt p.expiry_month) curMonth)

/-- The CVV length rule of validateCardDetails (lines 128–133). -/
def cvvLengthOk (p : PaymentData) : Bool :=
  p.cvv.length = (if p.payment_method = "amex" then 4 else 3)

/-- Conjunction of the five local checks of validateCardDetails (presence,
length, Luhn, expiry, CVV) — the "Local Validator" of the spec. -/
def localValidationPassed (p : PaymentData) (curYear curMonth : Int) : Bool :=
  presenceCheck p ∧
  cardLengthCheck (stripSpaces p.card_number) ∧
  luhnCheck (stripSpaces p.card_number) ∧
  ¬ expiryExpired p curYear curMonth ∧
  cvvLengthOk p

/-! ### Network requests and the demo-flow submission (App.jsx lines 179–276) -/

/-- The nested `card_details` object of the payment payload. -/
structure CardDetails where
  card_number : String
  expiry_month : String
  expiry_year : String
  cvv : String
  cardholder_name : String
deriving DecidableEq, Repr

/-- The body POSTed to `/transactions/create` (lines 187–201): identity
fields together with the card details; `amount` is the `parseFloat` of the
amount string (`none` = NaN). -/
structure PaymentPayload where
  full_name : String
  email : String
  phone : String
  amount : Option JsNumber
  currency : String
  payment_method : String
  card_details : CardDetails
deriving DecidableEq, Repr

/-- The payload built from the current state. -/
def mkPayload (st : AppState) : PaymentPayload :=
  { full_name := st.formData.full_name
    email := st.formData.email
    phone := st.formData.phone
    amount := jsParseFloat st.formData.amount
    currency := "USD"
    payment_method := st.paymentData.payment_method
    card_details :=
      { card_number := st.paymentData.card_number
        expiry_month := st.paymentData.expiry_month
        expiry_year := st.paymentData.expiry_year
        cvv := st.paymentData.cvv
        cardholder_name := st.paymentData.cardholder_name } }

/-- HTTP requests the frontend can attempt, including the processor (Stripe)
calls of the alternate flow. -/
inductive Request where
  | healthProbe
  | createTransaction (payload : PaymentPayload)
  | validateCard (card_number expiry_month expiry_year cvv : String)
  | stripeCreateIntent (amountCents : Option Int) (full_name email phone : String)
  | stripeCreatePM
  | stripeConfirmCard (client_secret payment_method_id : String)
  | stripeConfirmPost (payment_intent_id payment_method_id : String)
deriving DecidableEq, Repr

/-- A combined POST: a backend request whose body carries both the identity
fields and the card fields (only `/transactions/create` does). -/
def isCombinedPost : Request → Bool
  | .createTransaction _ => true
  | _ => false

instance {ε α : Type} [DecidableEq ε] [DecidableEq α] : DecidableEq (Except ε α) := by
  intro a b
  cases a <;> cases b
  case error.error x y =>
    exact if h : x = y then .isTrue (by rw [h]) else .isFalse (by intro hh; cases hh; exact h rfl)
  case ok.ok x y =>
    exact if h : x = y then .isTrue (by rw [h]) else .isFalse (by intro hh; cases hh; exact h rfl)
  case error.ok x y => exact .isFalse (by intro hh; cases hh)
  case ok.error x y => exact .isFalse (by intro hh; cases hh)

/-- Outcome of the network calls the demo-flow submission can make. -/
structure NetworkBehavior where
  /-- whether `GET /health` succeeds within its 3s timeout -/
  healthOk : Bool
  /-- `POST /transactions/create`: a transaction id, or a failure -/
  createTx : Except String String
deriving DecidableEq, Repr

/-- After any terminal success `handleSubmit` clears both field groups and
returns to step 1 (lines 253–267). -/
def resetForms (st : AppState) : AppState :=
  { st with formData := initialFormData, paymentData := initialPaymentData, step := 1 }

/-- `handleSubmit` of App.jsx (lines 179–276), returning the new state and the
requests attempted, in order.  `now` models `Date.now()`. -/
def handleSubmit (st : AppState) (net : NetworkBehavior) (now : Nat) : AppState × List Request :=
  let st0 := { st with loading := true, message := "" }
  if ¬ presenceCheck st0.paymentData then
    ({ st0 with message := "Please fill in all card details", messageType := "error",
                loading := false }, [])
  else
    let payload := mkPayload st0
    if net.healthOk then
      match net.createTx with
      | .ok txid =>
          let msg := "Payment successful! Transaction ID: " ++ txid
          (resetForms { st0 with messageType := "success", message := msg, loading := false },
           [.healthProbe, .createTransaction payload])
      | .error _ =>
          let msg := "Demo Payment Successful! (Backend error) Transaction ID: DEMO-" ++ toString now
          (resetForms { st0 with messageType := "success", message := msg, loading := false },
           [.healthProbe, .createTransaction payload])
    else
      let msg := "Demo Payment Successful! (Backend not available) Transaction ID: DEMO-" ++ toString now
      (resetForms { st0 with messageType := "success", message := msg, loading := false },
       [.healthProbe])

/-! ### UI events and the reachable-state machine

The render function (App.jsx lines 567–605) mounts exactly one step's inputs:
identity inputs and the continue button at step 1, the payment-method radios
with back/continue at step 2, the card inputs with back and the submit form at
step 3.  Events are therefore gated on the step that renders their control. -/

/-- `handleInputChange`: writes the named identity field. -/
def setFormField (f : FormData) (name value : String) : FormData :=
  if name = "full_name" then { f with full_name := value }
  else if name = "email" then { f with email := value }
  else if name = "phone" then { f with phone := value }
  else if name = "amount" then { f with amount := value }
  else f

/-- `handlePaymentInputChange`: writes the named payment field, formatting the
card number. -/
def setPaymentField (p : PaymentData) (name value : String) : PaymentData :=
  if name = "card_number" then { p with card_number := formatCardNumber value }
  else if name = "payment_method" then { p with payment_method := value }
  else if name = "expiry_month" then { p with expiry_month := value }
  else if name = "expiry_year" then { p with expiry_year := value }
  else if name = "cvv" then { p with cvv := value }
  else if name = "cardholder_name" then { p with cardholder_name := value }
  else p

/-- `handleNextStep` (lines 166–177). -/
def handleNextStep (st : AppState) : AppState :=
  let st1 := { st with message := "" }
  if st1.step = 1 then
    let r := validateBasicInfo st1
    if r.1 then { r.2 with step := 2 } else r.2
  else if st1.step = 2 then { st1 with step := 3 }
  else st1

/-- User/network events the component can receive. -/
inductive Event where
  | setIdentity (name value : String)
  | setPayment (name value : String)
  | nextStep
  | back
  | submit (net : NetworkBehavior) (now : Nat)
deriving Repr

/-- One event step of the wizard, with the requests it emits.  Field edits are
gated by the step whose render mounts their input; the back buttons call
`setStep(1)` / `setStep(2)` directly; the submit form exists only at step 3. -/
def stepApp (st : AppState) (e : Event) : AppState × List Request :=
  match e with
  | .setIdentity n v =>
      if st.step = 1 then ({ st with formData := setFormField st.formData n v }, [])
      else (st, [])
  | .setPayment n v =>
      if (st.step = 2 ∧ n = "payment_method") ∨
         (st.step = 3 ∧ n ≠ "payment_method") then
        ({ st with paymentData := setPaymentField st.paymentData n v }, [])
      else (st, [])
  | .nextStep =>
      if st.step = 1 ∨ st.step = 2 then (handleNextStep st, []) else (st, [])
  | .back =>
      if st.step = 3 then ({ st with step := 2 }, [])
      else if st.step = 2 then ({ st with step := 1 }, [])
      else (st, [])
  | .submit net now =>
      if st.step = 3 then handleSubmit st net now else (st, [])

/-- Run a list of events from a state, accumulating emitted requests. -/
def runEvents (st : AppState) : List Event → AppState × List Request
  | [] => (st, [])
  | e :: rest =>
      let r := stepApp st e
      let r' := runEvents r.1 rest
      (r'.1, r.2 ++ r'.2)

/-! ### The Stripe flow (src/unnamed/part_001, `PaymentForm.handleSubmit`) -/

/-- Outcomes of the four external interactions of the Stripe submission. -/
structure StripeBehavior where
  /-- `POST /stripe/create-payment-intent`: `(client_secret, payment_intent_id)`
  or a thrown error carrying the resolved `detail` message -/
  intentRes : Except String (String × String)
  /-- `stripe.createPaymentMethod`: a payment-method id or `pmError.message` -/
  pmRes : Except String String
  /-- `stripe.confirmCardPayment`: `paymentIntent.status` or `confirmError.message` -/
  confirmRes : Except String String
  /-- `POST /stripe/confirm-payment`: acknowledgement or a thrown error's detail -/
  confirmPost : Except String Unit
deriving DecidableEq, Repr

/-- `PaymentForm.handleSubmit` of the Stripe flow variant, returning the new
state and the requests/processor calls attempted, in order. -/
def stripeHandleSubmit (st : AppState) (sb : StripeBehavior) : AppState × List Request :=
  let st0 := { st with loading := true, message := "" }
  let intentReq := Request.stripeCreateIntent
    ((jsToNumber st0.formData.amount).map fun x => jsRound ⟨x.num * 100, x.denPow⟩)
    st0.formData.full_name st0.formData.email st0.formData.phone
  match sb.intentRes with
  | .error d =>
      ({ st0 with messageType := "error", message := d, loading := false }, [intentReq])
  | .ok cp =>
      match sb.pmRes with
      | .error m =>
          ({ st0 with messageType := "error", message := m, loading := false },
           [intentReq, .stripeCreatePM])
      | .ok pmId =>
          match sb.confirmRes with
          | .error m =>
              ({ st0 with messageType := "error", message := m, loading := false },
               [intentReq, .stripeCreatePM, .stripeConfirmCard cp.1 pmId])
          | .ok status =>
              if status ≠ "succeeded" then
                ({ st0 with messageType := "error",
                            message := "Payment was not successful.", loading := false },
                 [intentReq, .stripeCreatePM, .stripeConfirmCard cp.1 pmId])
              else
                match sb.confirmPost with
                | .error d =>
                    ({ st0 with messageType := "error", message := d, loading := false },
                     [intentReq, .stripeCreatePM, .stripeConfirmCard cp.1 pmId,
                      .stripeConfirmPost cp.2 pmId])
                | .ok _ =>
                    ({ st0 with messageType := "success", message := "Payment successful!",
                                formData := initialFormData, paymentData := initialPaymentData,
                                step := 1, loading := false },
                     [intentReq, .stripeCreatePM, .stripeConfirmCard cp.1 pmId,
                      .stripeConfirmPost cp.2 pmId])

/-! ## Lemmas about the formatter -/

theorem chunk4_eq_nil_iff {l : List Char} : chunk4 l = [] ↔ l = [] := by
  constructor
  · intro h
    by_contra hl
    rw [chunk4_cons hl] at h
    exact List.noConfusion h
  · intro h
    rw [h, chunk4_nil]

theorem chunk4_flatten (l : List Char) : (chunk4 l).flatten = l := by
  suffices key : ∀ (n : Nat) (l : List Char), l.length ≤ n → (chunk4 l).flatten = l from
    key l.length l le_rfl
  intro n
  induction n with
  | zero =>
    intro l hl
    rw [List.length_eq_zero.mp (Nat.le_zero.mp hl), chunk4_nil]
    rfl
  | succ n ih =>
    intro l hl
    by_cases h : l = []
    · rw [h, chunk4_nil]; rfl
    · rw [chunk4_cons h, List.flatten_cons, ih (l.drop 4) ?_, List.take_append_drop]
      rw [List.length_drop]
      omega

theorem chunk4_mem_length {l c : List Char} (hc : c ∈ chunk4 l) :
    c.length ≤ 4 ∧ c ≠ [] := by
  suffices key : ∀ (n : Nat) (l c : List Char), l.length ≤ n → c ∈ chunk4 l →
      c.length ≤ 4 ∧ c ≠ [] from key l.length l c le_rfl hc
  intro n
  induction n with
  | zero =>
    intro l c hl hc
    rw [List.length_eq_zero.mp (Nat.le_zero.mp hl), chunk4_nil] at hc
    exact absurd hc (List.not_mem_nil c)
  | succ n ih =>
    intro l c hl hc
    by_cases h : l = []
    · rw [h, chunk4_nil] at hc
      exact absurd hc (List.not_mem_nil c)
    · rw [chunk4_cons h] at hc
      rcases List.mem_cons.mp hc with h1 | h2
      · subst h1
        refine ⟨by simpa using Nat.min_le_left 4 l.length, ?_⟩
        rw [Ne, List.take_eq_nil_iff]
        simp [h]
      · refine ih (l.drop 4) c ?_ h2
        rw [List.length_drop]
        omega

theorem chunk4_length (l : List Char) : (chunk4 l).length = (l.length + 3) / 4 := by
  suffices key : ∀ (n : Nat) (l : List Char), l.length ≤ n →
      (chunk4 l).length = (l.length + 3) / 4 from key l.length l le_rfl
  intro n
  induction n with
  | zero =>
    intro l hl
    rw [List.length_eq_zero.mp (Nat.le_zero.mp hl), chunk4_nil]
    rfl
  | succ n ih =>
    intro l hl
    by_cases h : l = []
    · rw [h, chunk4_nil]; rfl
    · rw [chunk4_cons h]
      have hpos : 0 < l.length := List.length_pos.mpr h
      have hdl : (l.drop 4).length ≤ n := by rw [List.length_drop]; omega
      rw [List.length_cons, ih (l.drop 4) hdl, List.length_drop]
      omega

theorem chunk4_dropLast_length (l : List Char) :
    ∀ c ∈ (chunk4 l).dropLast, c.length = 4 := by
  suffices key : ∀ (n : Nat) (l : List Char), l.length ≤ n →
      ∀ c ∈ (chunk4 l).dropLast, c.length = 4 from key l.length l le_rfl
  intro n
  induction n with
  | zero =>
    intro l hl c hc
    rw [List.length_eq_zero.mp (Nat.le_zero.mp hl), chunk4_nil] at hc
    exact absurd hc (List.not_mem_nil c)
  | succ n ih =>
    intro l hl c hc
    by_cases h : l = []
    · rw [h, chunk4_nil] at hc
      exact absurd hc (List.not_mem_nil c)
    · rw [chunk4_cons h] at hc
      by_cases h4 : l.drop 4 = []
      · rw [h4, chunk4_nil] at hc
        exact absurd hc (List.not_mem_nil c)
      · have htail : chunk4 (l.drop 4) ≠ [] := fun hh => h4 (chunk4_eq_nil_iff.mp hh)
        rw [List.dropLast_cons_of_ne_nil htail] at hc
        rcases List.mem_cons.mp hc with h1 | h2
        · subst h1
          have h4lt : 4 < l.length := by
            have := mt List.drop_eq_nil_iff.mpr h4
            omega
          simp [List.length_take]
          omega
        · refine ih (l.drop 4) ?_ c h2
          rw [List.length_drop]
          omega

theorem intercalate_space_nil : List.intercalate [' '] ([] : List (List Char)) = [] := rfl

theorem intercalate_space_single (g : List Char) :
    List.intercalate [' '] [g] = g := by
  simp [List.intercalate]

theorem intercalate_space_cons {gs : List (List Char)} (g : List Char) (h : gs ≠ []) :
    List.intercalate [' '] (g :: gs) = g ++ ' ' :: List.intercalate [' '] gs := by
  cases gs with
  | nil => exact absurd rfl h
  | cons g' t =>
    simp [List.intercalate, List.intersperse_cons_cons]

/-- Length of the joined-with-separators chunk list. -/
theorem intercalate_chunk4_length (l : List Char) :
    (List.intercalate [' '] (chunk4 l)).length = l.length + ((chunk4 l).length - 1) := by
  suffices key : ∀ (n : Nat) (l : List Char), l.length ≤ n →
      (List.intercalate [' '] (chunk4 l)).length = l.length + ((chunk4 l).length - 1) from
    key l.length l le_rfl
  intro n
  induction n with
  | zero =>
    intro l hl
    rw [List.length_eq_zero.mp (Nat.le_zero.mp hl), chunk4_nil]
    rfl
  | succ n ih =>
    intro l hl
    by_cases h : l = []
    · rw [h, chunk4_nil]; rfl
    · by_cases h4 : l.drop 4 = []
      · rw [chunk4_cons h, h4, chunk4_nil, intercalate_space_single]
        have hle : l.length ≤ 4 := List.drop_eq_nil_iff.mp h4
        simp [List.length_take]
        omega
      · have htail : chunk4 (l.drop 4) ≠ [] := fun hh => h4 (chunk4_eq_nil_iff.mp hh)
        have hpos : 0 < l.length := List.length_pos.mpr h
        have h4lt : 4 < l.length := by
          have := mt List.drop_eq_nil_iff.mpr h4
          omega
        have hdl : (l.drop 4).length ≤ n := by rw [List.length_drop]; omega
        have htlen : 0 < (chunk4 (l.drop 4)).length := List.length_pos.mpr htail
        rw [chunk4_cons h, intercalate_space_cons _ htail]
        simp only [List.length_append, List.length_cons, ih (l.drop 4) hdl,
          List.length_take, List.length_drop]
        omega

/-- Truncating the grouped string at `5*n + 4` characters is the same as
grouping only the first `4*n + 4` digits. -/
theorem intercalate_chunk4_take (n : Nat) (ds : List Char) :
    (List.intercalate [' '] (chunk4 ds)).take (5 * n + 4)
      = List.intercalate [' '] (chunk4 (ds.take (4 * n + 4))) := by
  induction n generalizing ds with
  | zero =>
    simp only [Nat.mul_zero, Nat.zero_add]
    by_cases h : ds = []
    · rw [h]
      simp [chunk4_nil, intercalate_space_nil]
    · by_cases h4 : ds.drop 4 = []
      · have hle : ds.length ≤ 4 := List.drop_eq_nil_iff.mp h4
        have ht : ds.take 4 = ds := List.take_of_length_le hle
        rw [ht, chunk4_cons h, h4, chunk4_nil, intercalate_space_single]
        exact List.take_of_length_le (by rw [List.length_take]; omega)
      · have h4lt : 4 < ds.length := by
          have := mt List.drop_eq_nil_iff.mpr h4
          omega
        have htake4len : (ds.take 4).length = 4 := by
          simp [List.length_take]
          omega
        have htail : chunk4 (ds.drop 4) ≠ [] := fun hh => h4 (chunk4_eq_nil_iff.mp hh)
        have hrt : ds.take 4 ≠ [] := by
          rw [Ne, List.take_eq_nil_iff]
          simp [h]
        have hrd : (ds.take 4).drop 4 = [] :=
          List.drop_eq_nil_iff.mpr (le_of_eq htake4len)
        rw [chunk4_cons h, intercalate_space_cons _ htail, chunk4_cons hrt, hrd,
          chunk4_nil, intercalate_space_single, List.take_append_eq_append_take,
          htake4len]
        simp [List.take_take]
  | succ n ih =>
    by_cases h : ds = []
    · rw [h]
      simp [chunk4_nil, intercalate_space_nil]
    · by_cases h4 : ds.drop 4 = []
      · have hle : ds.length ≤ 4 := List.drop_eq_nil_iff.mp h4
        have ht1 : ds.take (4 * (n + 1) + 4) = ds := List.take_of_length_le (by omega)
        rw [ht1, chunk4_cons h, h4, chunk4_nil, intercalate_space_single]
        exact List.take_of_length_le (by rw [List.length_take]; omega)
      · have h4lt : 4 < ds.length := by
          have := mt List.drop_eq_nil_iff.mpr h4
          omega
        have htake4len : (ds.take 4).length = 4 := by
          simp [List.length_take]
          omega
        have htail : chunk4 (ds.drop 4) ≠ [] := fun hh => h4 (chunk4_eq_nil_iff.mp hh)
        have hbig : ds.take (4 * (n + 1) + 4) ≠ [] := by
          rw [Ne, List.take_eq_nil_iff]
          simp [h]
        have htaketake : (ds.take (4 * (n + 1) + 4)).take 4 = ds.take 4 := by
          rw [List.take_take, Nat.min_eq_left (by omega)]
        have htakedrop : (ds.take (4 * (n + 1) + 4)).drop 4 = (ds.drop 4).take (4 * n + 4) := by
          rw [List.drop_take, show 4 * (n + 1) + 4 - 4 = 4 * n + 4 from by omega]
        have htail2 : chunk4 ((ds.drop 4).take (4 * n + 4)) ≠ [] := by
          rw [Ne, chunk4_eq_nil_iff, List.take_eq_nil_iff]
          simp [h4]
        rw [chunk4_cons h, intercalate_space_cons _ htail,
          chunk4_cons hbig, htaketake, htakedrop, intercalate_space_cons _ htail2,
          List.take_append_eq_append_take, htake4len,
          List.take_of_length_le (by rw [htake4len]; omega)]
        have harith : 5 * (n + 1) + 4 - 4 = 5 * n + 4 + 1 := by omega
        rw [harith, List.take_succ_cons, ih (ds.drop 4)]

/-- Digits are not in the `\\s` class. -/
theorem isDigit_not_space {c : Char} (hc : c.isDigit = true) : jsIsSpace c = false := by
  unfold jsIsSpace
  simp only [decide_eq_false_iff_not]
  rintro (rfl | rfl | rfl | rfl | rfl | rfl) <;> exact absurd hc (by decide)

/-- Filtering the separators back out of a joined group list recovers the
concatenated groups, provided the groups are all digits. -/
theorem filter_intercalate_space (gs : List (List Char))
    (hg : ∀ g ∈ gs, ∀ c ∈ g, c.isDigit = true) :
    (List.intercalate [' '] gs).filter Char.isDigit = gs.flatten := by
  induction gs with
  | nil => rfl
  | cons g t ih =>
    cases t with
    | nil =>
      rw [intercalate_space_single]
      simp only [List.flatten_cons, List.flatten_nil, List.append_nil]
      exact List.filter_eq_self.mpr (hg g (List.mem_cons_self g []))
    | cons g' t' =>
      rw [intercalate_space_cons _ (List.cons_ne_nil g' t'), List.filter_append,
        List.filter_cons, List.flatten_cons]
      have hsp : Char.isDigit ' ' = false := by decide
      rw [hsp]
      simp only [Bool.false_eq_true, if_false]
      rw [List.filter_eq_self.mpr (hg g (List.mem_cons_self g (g' :: t'))),
        ih (fun g hg' c hc => hg g (List.mem_cons_of_mem _ hg') c hc)]

/-- Characters of a joined group list are group members or the separator. -/
theorem mem_intercalate_space {gs : List (List Char)} {c : Char}
    (hc : c ∈ List.intercalate [' '] gs) : (∃ g ∈ gs, c ∈ g) ∨ c = ' ' := by
  induction gs with
  | nil => exact absurd hc (List.not_mem_nil c)
  | cons g t ih =>
    cases t with
    | nil =>
      rw [intercalate_space_single] at hc
      exact Or.inl ⟨g, List.mem_cons_self g [], hc⟩
    | cons g' t' =>
      rw [intercalate_space_cons _ (List.cons_ne_nil g' t')] at hc
      rcases List.mem_append.mp hc with h1 | h2
      · exact Or.inl ⟨g, List.mem_cons_self g (g' :: t'), h1⟩
      · rcases List.mem_cons.mp h2 with h3 | h4
        · exact Or.inr h3
        · rcases ih h4 with ⟨g'', hg'', hcg⟩ | hsp
          · exact Or.inl ⟨g'', List.mem_cons_of_mem _ hg'', hcg⟩
          · exact Or.inr hsp

/-- Normal form of the formatter: it is the space-grouping of the first 16
digits of the input. -/
theorem formatCardNumber_toList (raw : String) :
    (formatCardNumber raw).toList
      = List.intercalate [' '] (chunk4 ((raw.toList.filter Char.isDigit).take 16)) := by
  have h := intercalate_chunk4_take 3 (raw.toList.filter Char.isDigit)
  norm_num at h
  exact h

/-- Every character of the formatter's output is a digit or a space, and the
chunks of its digit prefix are what the output groups. -/
theorem formatCardNumber_chars (raw : String) :
    ∀ c ∈ (formatCardNumber raw).toList, c.isDigit = true ∨ c = ' ' := by
  intro c hc
  rw [formatCardNumber_toList] at hc
  rcases mem_intercalate_space hc with ⟨g, hg, hcg⟩ | hsp
  · left
    have : c ∈ (raw.toList.filter Char.isDigit).take 16 := by
      rw [← chunk4_flatten ((raw.toList.filter Char.isDigit).take 16)]
      exact List.mem_flatten.mpr ⟨g, hg, hcg⟩
    exact List.of_mem_filter (List.mem_of_mem_take this)
  · right
    exact hsp

/-- The digit content of the formatter's output is the first 16 digits of the
raw input. -/
theorem formatCardNumber_filter (raw : String) :
    (formatCardNumber raw).toList.filter Char.isDigit
      = (raw.toList.filter Char.isDigit).take 16 := by
  rw [formatCardNumber_toList]
  rw [filter_intercalate_space _ ?hg, chunk4_flatten]
  case hg =>
    intro g hg c hc
    have : c ∈ (raw.toList.filter Char.isDigit).take 16 := by
      rw [← chunk4_flatten ((raw.toList.filter Char.isDigit).take 16)]
      exact List.mem_flatten.mpr ⟨g, hg, hc⟩
    exact List.of_mem_filter (List.mem_of_mem_take this)

theorem string_eq_of_toList {s t : String} (h : s.toList = t.toList) : s = t := by
  cases s
  cases t
  simp only [String.toList] at h
  subst h
  rfl

/-- C6: for every raw input string the card-number formatter strips all
non-digit characters (retaining exactly the first 16 digits), never exceeds 19
characters, contains only digits and the space separator, splits on the
separator into digit groups of at most 4 digits, and every group before the
last has exactly 4 digits. -/
theorem C6_formatCardNumber_correct (raw : String) :
    (formatCardNumber raw).length ≤ 19 ∧
    (formatCardNumber raw).toList.filter Char.isDigit
        = (raw.toList.filter Char.isDigit).take 16 ∧
    ((formatCardNumber raw).toList.all fun c => c.isDigit || c == ' ') = true ∧
    (((formatCardNumber raw).toList.splitOn ' ').all fun g =>
        decide (g.length ≤ 4) && g.all Char.isDigit) = true ∧
    (((formatCardNumber raw).toList.splitOn ' ').dropLast.all fun g => g.length == 4) = true := by
  refine ⟨List.length_take_le _ _, formatCardNumber_filter raw, ?_, ?_, ?_⟩
  · rw [List.all_eq_true]
    intro c hc
    rcases formatCardNumber_chars raw c hc with h | h
    · simp [h]
    · simp [h]
  · by_cases hd : (raw.toList.filter Char.isDigit).take 16 = []
    · rw [formatCardNumber_toList, hd, chunk4_nil, intercalate_space_nil]
      rfl
    · rw [formatCardNumber_toList,
        List.splitOn_intercalate _ ' ' ?notmem (fun hh => hd (chunk4_eq_nil_iff.mp hh)),
        List.all_eq_true]
      case notmem =>
        intro g hg hmem
        have hin : (' ' : Char) ∈ (raw.toList.filter Char.isDigit).take 16 := by
          rw [← chunk4_flatten ((raw.toList.filter Char.isDigit).take 16)]
          exact List.mem_flatten.mpr ⟨g, hg, hmem⟩
        exact absurd (List.of_mem_filter (List.mem_of_mem_take hin)) (by decide)
      intro g hg
      obtain ⟨hlen, -⟩ := chunk4_mem_length hg
      rw [Bool.and_eq_true, List.all_eq_true]
      refine ⟨by simpa using hlen, ?_⟩
      intro c hc
      have hin : c ∈ (raw.toList.filter Char.isDigit).take 16 := by
        rw [← chunk4_flatten ((raw.toList.filter Char.isDigit).take 16)]
        exact List.mem_flatten.mpr ⟨g, hg, hc⟩
      exact List.of_mem_filter (List.mem_of_mem_take hin)
  · by_cases hd : (raw.toList.filter Char.isDigit).take 16 = []
    · rw [formatCardNumber_toList, hd, chunk4_nil, intercalate_space_nil]
      rfl
    · rw [formatCardNumber_toList,
        List.splitOn_intercalate _ ' ' ?notmem2 (fun hh => hd (chunk4_eq_nil_iff.mp hh)),
        List.all_eq_true]
      case notmem2 =>
        intro g hg hmem
        have hin : (' ' : Char) ∈ (raw.toList.filter Char.isDigit).take 16 := by
          rw [← chunk4_flatten ((raw.toList.filter Char.isDigit).take 16)]
          exact List.mem_flatten.mpr ⟨g, hg, hmem⟩
        exact absurd (List.of_mem_filter (List.mem_of_mem_take hin)) (by decide)
      intro g hg
      have := chunk4_dropLast_length _ g hg
      simp [this]

/-- C7: the card-number formatter is idempotent. -/
theorem C7_formatCardNumber_idempotent (raw : String) :
    formatCardNumber (formatCardNumber raw) = formatCardNumber raw := by
  apply string_eq_of_toList
  rw [formatCardNumber_toList (formatCardNumber raw), formatCardNumber_filter raw,
    List.take_take, Nat.min_self, formatCardNumber_toList raw]

/-- The validator's space-stripping of the formatter's output leaves at most
16 digits. -/
theorem stripSpaces_formatCardNumber_length (raw : String) :
    (stripSpaces (formatCardNumber raw)).length ≤ 16 := by
  show ((formatCardNumber raw).toList.filter (fun c => ! jsIsSpace c)).length ≤ 16
  have hcong : (formatCardNumber raw).toList.filter (fun c => ! jsIsSpace c)
      = (formatCardNumber raw).toList.filter Char.isDigit := by
    apply List.filter_congr
    intro c hc
    rcases formatCardNumber_chars raw c hc with h | h
    · rw [isDigit_not_space h, h]
      rfl
    · subst h
      decide
  rw [hcong, formatCardNumber_filter]
  exact List.length_take_le _ _

theorem setPaymentField_card_number (p : PaymentData) (n v : String) :
    (setPaymentField p n v).card_number = p.card_number ∨
      (setPaymentField p n v).card_number = formatCardNumber v := by
  unfold setPaymentField
  split
  · exact Or.inr rfl
  · split
    · exact Or.inl rfl
    · split
      · exact Or.inl rfl
      · split
        · exact Or.inl rfl
        · split
          · exact Or.inl rfl
          · split
            · exact Or.inl rfl
            · exact Or.inl rfl

theorem handleNextStep_paymentData (st : AppState) :
    (handleNextStep st).paymentData = st.paymentData := by
  unfold handleNextStep validateBasicInfo
  dsimp only
  split_ifs <;> rfl

theorem handleSubmit_paymentData (st : AppState) (net : NetworkBehavior) (now : Nat) :
    (handleSubmit st net now).1.paymentData = st.paymentData ∨
      (handleSubmit st net now).1.paymentData = initialPaymentData := by
  unfold handleSubmit resetForms
  dsimp only
  rcases net.createTx with d | txid <;> split_ifs <;>
    first
      | exact Or.inl rfl
      | exact Or.inr rfl

/-- Invariant: along any event trace, the stored card number never holds more
than 16 digits, because every write goes through the formatter. -/
theorem card_number_cap_inv : ∀ (es : List Event) (st : AppState),
    (stripSpaces st.paymentData.card_number).length ≤ 16 →
    (stripSpaces (runEvents st es).1.paymentData.card_number).length ≤ 16 := by
  intro es
  induction es with
  | nil => exact fun st h => h
  | cons e t ih =>
    intro st h
    show (stripSpaces (runEvents (stepApp st e).1 t).1.paymentData.card_number).length ≤ 16
    apply ih
    rcases e with ⟨n, v⟩ | ⟨n, v⟩ | _ | _ | ⟨net, now⟩
    · simp only [stepApp]
      split_ifs <;> exact h
    · simp only [stepApp]
      split_ifs with hc
      · show (stripSpaces (setPaymentField st.paymentData n v).card_number).length ≤ 16
        rcases setPaymentField_card_number st.paymentData n v with hh | hh
        · rw [hh]
          exact h
        · rw [hh]
          exact stripSpaces_formatCardNumber_length v
      · exact h
    · simp only [stepApp]
      split_ifs with hc
      · show (stripSpaces (handleNextStep st).paymentData.card_number).length ≤ 16
        rw [handleNextStep_paymentData]
        exact h
      · exact h
    · simp only [stepApp]
      split_ifs <;> exact h
    · simp only [stepApp]
      split_ifs with hc
      · show (stripSpaces (handleSubmit st net now).1.paymentData.card_number).length ≤ 16
        rcases handleSubmit_paymentData st net now with hh | hh
        · rw [hh]
          exact h
        · rw [hh]
          decide
      · exact h

/-- C9: the formatter's output carries at most 16 digits once the validator
strips spaces, so the validator's acceptance of digit lengths up to 19 is
never exercised above 16 by formatter-produced input; moreover along every
event trace of the wizard the stored card number keeps at most 16 digits, so
a 17–19-digit card number cannot be submitted via the form. -/
theorem C9_formatter_digit_cap (raw : String) :
    (stripSpaces (formatCardNumber raw)).length ≤ 16 ∧
    ∀ es : List Event,
      (stripSpaces (runEvents initialState es).1.paymentData.card_number).length ≤ 16 :=
  ⟨stripSpaces_formatCardNumber_length raw,
   fun es => card_number_cap_inv es initialState (by decide)⟩

/-- The source's indexed fold equals the flag-driven amended sum: the flag is
set exactly on even indices. -/
theorem luhnFold_eq_amended : ∀ (l : List Nat) (acc i : Nat),
    luhnFold acc i l = amendedRemainderSum acc (decide (i % 2 = 0)) l := by
  intro l
  induction l with
  | nil => intro acc i; rfl
  | cons v rest ih =>
    intro acc i
    simp only [luhnFold, amendedRemainderSum]
    rw [ih]
    by_cases hi : i % 2 = 0
    · have h1 : decide (i % 2 = 0) = true := by simp [hi]
      have h2 : decide ((i + 1) % 2 = 0) = false := by
        simp only [decide_eq_false_iff_not]
        omega
      rw [h1, h2]
      have hs : luhnStep acc i v = jsOrNat (acc + (v * 2) % 9) 9 := by
        simp [luhnStep, hi]
      rw [hs]
      rfl
    · have h1 : decide (i % 2 = 0) = false := by simp [hi]
      have h2 : decide ((i + 1) % 2 = 0) = true := by
        simp only [decide_eq_true_eq]
        omega
      rw [h1, h2]
      have hs : luhnStep acc i v = acc + v := by
        simp [luhnStep, hi]
      rw [hs]
      rfl

/-- C1 counterexample: the digit-only, length-16 card number 9242424242424240
is accepted by the code's checksum step, but the computation described by the
claim (double the digits at odd 0-indexed positions of the reversed remainder
with the subtract-9 rule) yields 65, which is not divisible by 10. -/
theorem C1_counterexample :
    luhnCheck "9242424242424240" = true ∧
    specLuhnSum "9242424242424240" = 65 ∧
    ¬ specLuhnSum "9242424242424240" % 10 = 0 ∧
    ("9242424242424240".toList.all Char.isDigit) = true ∧
    "9242424242424240".length = 16 := by
  refine ⟨by decide, by decide, by decide, by decide, by decide⟩

/-- C1 (amended): for every digit-only card number string of length 13 to 19,
the checksum step accepts it iff the following sum is divisible by 10: reverse
the digits, hold out the first (rightmost) digit, then for the remainder
double every digit at an *even* 0-indexed position reducing the doubled value
modulo 9 (so a doubled 9 contributes 0), keep the digits at odd positions, and
replace a running total that is 0 after a doubled position by 9; finally add
the held-out digit. -/
theorem C1_luhnCheck_amended (s : String)
    (hdigits : s.toList.all Char.isDigit = true)
    (hlen : 13 ≤ s.length) (hlen19 : s.length ≤ 19) :
    (luhnCheck s = true ↔ amendedLuhnSum s % 10 = 0) := by
  unfold luhnCheck amendedLuhnSum
  cases hrev : s.toList.reverse.map charToDigit with
  | nil =>
    exfalso
    have hl : s.toList.reverse.length = 0 := by
      have := congrArg List.length hrev
      simpa using this
    rw [List.length_reverse] at hl
    have : s.length = 0 := hl
    omega
  | cons last rest =>
    dsimp only
    have hf := luhnFold_eq_amended rest 0 0
    norm_num at hf
    rw [hf]
    simp [decide_eq_true_eq]

/-- Witness for the amended C1 theorem at the spec's own test vector. -/
theorem C1_witness :
    ("4242424242424242".toList.all Char.isDigit) = true ∧
    13 ≤ "4242424242424242".length ∧
    "4242424242424242".length ≤ 19 ∧
    (luhnCheck "4242424242424242" = true ↔ amendedLuhnSum "4242424242424242" % 10 = 0) :=
  ⟨by decide, by decide, by decide,
   C1_luhnCheck_amended "4242424242424242" (by decide) (by decide) (by decide)⟩

/-- C5 counterexample: with all four identity fields non-empty but the amount
the non-numeric string "x", `handleNextStep` advances from step 1 to step 2
even though the amount is not a number greater than 0 (`parseFloat` of "x" is
NaN and `NaN <= 0` is false). -/
theorem C5_counterexample :
    (handleNextStep { initialState with
        formData := ⟨"John Doe", "j@x.com", "123", "x"⟩ }).step = 2 ∧
    jsParseFloat "x" = none := by
  exact ⟨rfl, rfl⟩

/-- C5 (amended): advancing from step 1 succeeds iff all four identity fields
are non-empty and `parseFloat(amount) <= 0` is false (in particular a
non-empty amount that does not parse to a number is accepted); when a field is
missing the step stays 1 with error "Please fill in all fields"; when all
fields are present and `parseFloat(amount) <= 0` the step stays 1 with error
"Amount must be greater than 0". -/
theorem C5_handleNextStep_amended (st : AppState) (h1 : st.step = 1) :
    ((handleNextStep st).step = 2 ↔
      ((jsTruthy st.formData.full_name = true ∧ jsTruthy st.formData.email = true ∧
        jsTruthy st.formData.phone = true ∧ jsTruthy st.formData.amount = true) ∧
       jsLe0 (jsParseFloat st.formData.amount) = false)) ∧
    (¬ (jsTruthy st.formData.full_name = true ∧ jsTruthy st.formData.email = true ∧
        jsTruthy st.formData.phone = true ∧ jsTruthy st.formData.amount = true) →
      (handleNextStep st).step = 1 ∧
      (handleNextStep st).message = "Please fill in all fields" ∧
      (handleNextStep st).messageType = "error") ∧
    ((jsTruthy st.formData.full_name = true ∧ jsTruthy st.formData.email = true ∧
      jsTruthy st.formData.phone = true ∧ jsTruthy st.formData.amount = true) →
     jsLe0 (jsParseFloat st.formData.amount) = true →
      (handleNextStep st).step = 1 ∧
      (handleNextStep st).message = "Amount must be greater than 0" ∧
      (handleNextStep st).messageType = "error") := by
  unfold handleNextStep validateBasicInfo
  dsimp only
  rw [h1]
  by_cases hp : (jsTruthy st.formData.full_name = true ∧ jsTruthy st.formData.email = true ∧
      jsTruthy st.formData.phone = true ∧ jsTruthy st.formData.amount = true)
  · by_cases hl : jsLe0 (jsParseFloat st.formData.amount) = true
    · simp [hp, hl]
    · simp [hp, hl, Bool.not_eq_true] at hl ⊢
  · simp [hp]

/-- Witness for the amended C5 theorem: a fully filled form with amount "5"
advances to step 2. -/
theorem C5_witness :
    (handleNextStep { initialState with
        formData := ⟨"Ann", "a@b.c", "555", "5"⟩ }).step = 2 :=
  (C5_handleNextStep_amended _ rfl).1.mpr
    ⟨⟨by decide, by decide, by decide, by decide⟩, by decide⟩

/-- The integer-sign test used by `jsLe0` agrees with the real comparison of
the represented value against 0. -/
theorem jsLe0_correct (x : JsNumber) :
    jsLe0 (some x) = true ↔ x.toRat ≤ 0 := by
  show (decide (x.num ≤ 0) = true) ↔ _
  rw [decide_eq_true_eq]
  unfold JsNumber.toRat
  have hp : (0 : ℚ) < (10 : ℚ) ^ x.denPow := by positivity
  rw [div_nonpos_iff]
  constructor
  · intro h
    exact Or.inr ⟨by exact_mod_cast h, le_of_lt hp⟩
  · rintro (⟨-, hb⟩ | ⟨ha, -⟩)
    · exact absurd hb (not_le.mpr hp)
    · exact_mod_cast ha

/-- C3: if the backend liveness probe fails, submission still terminates with
a success result whose message carries the demo reference "DEMO-" plus the
time-based identifier, the only request attempted is the probe itself (no
transaction creation and no processor call), and both field groups are reset
to their initial empty values with the step returned to 1. -/
theorem C3_probe_failure_demo_success (st : AppState) (net : NetworkBehavior) (now : Nat)
    (hpres : presenceCheck st.paymentData = true) (hdown : net.healthOk = false) :
    (handleSubmit st net now).1.messageType = "success" ∧
    (handleSubmit st net now).1.message =
      "Demo Payment Successful! (Backend not available) Transaction ID: DEMO-" ++ toString now ∧
    (handleSubmit st net now).2 = [Request.healthProbe] ∧
    (handleSubmit st net now).1.formData = initialFormData ∧
    (handleSubmit st net now).1.paymentData = initialPaymentData ∧
    (handleSubmit st net now).1.step = 1 ∧
    (handleSubmit st net now).1.loading = false := by
  unfold handleSubmit resetForms
  dsimp only
  simp [hpres, hdown]

/-- A filled step-3 state used by the C3 witness. -/
def c3State : AppState :=
  { initialState with
      step := 3
      paymentData := ⟨"visa", "4242 4242 4242 4242", "12", "2030", "123", "JO"⟩ }

/-- Witness for C3 at a concrete step-3 state with the probe down. -/
theorem C3_witness :
    (handleSubmit c3State ⟨false, Except.error "down"⟩ 17).1.messageType = "success" :=
  (C3_probe_failure_demo_success _ _ 17 (by decide) rfl).1

/-- C8: in the demo-flow submission, once the card-field presence check
passes, every combination of probe and transaction-create outcomes terminates
with message kind success; no network outcome can produce an error result. -/
theorem C8_no_error_after_presence (st : AppState) (net : NetworkBehavior) (now : Nat)
    (hpres : presenceCheck st.paymentData = true) :
    (handleSubmit st net now).1.messageType = "success" := by
  unfold handleSubmit resetForms
  dsimp only
  rcases hh : net.healthOk <;> rcases hc : net.createTx with d | txid <;>
    simp [hpres, hh, hc]

/-- A filled step-3 state used by the C8 witness. -/
def c8State : AppState :=
  { initialState with
      step := 3
      paymentData := ⟨"visa", "4111 1111 1111 1111", "01", "2031", "999", "AB"⟩ }

/-- Witness for C8 at a concrete state where the backend is up but the
transaction-create call fails. -/
theorem C8_witness :
    (handleSubmit c8State ⟨true, Except.error "backend failure"⟩ 5).1.messageType = "success" :=
  C8_no_error_after_presence _ _ 5 (by decide)

/-- C4: in the Stripe flow, when intent creation and payment-method creation
succeed but the confirmed payment intent's status is not the success sentinel
"succeeded", the submission ends in an error result with message exactly
"Payment was not successful.", the wizard step remains 3, and the busy flag is
cleared. -/
theorem C4_nonsuccess_status (st : AppState) (sb : StripeBehavior)
    (cs piid pm status : String)
    (hint : sb.intentRes = Except.ok (cs, piid))
    (hpm : sb.pmRes = Except.ok pm)
    (hconf : sb.confirmRes = Except.ok status)
    (hstatus : status ≠ "succeeded")
    (hstep : st.step = 3) :
    (stripeHandleSubmit st sb).1.messageType = "error" ∧
    (stripeHandleSubmit st sb).1.message = "Payment was not successful." ∧
    (stripeHandleSubmit st sb).1.step = 3 ∧
    (stripeHandleSubmit st sb).1.loading = false := by
  unfold stripeHandleSubmit
  dsimp only
  rw [hint, hpm, hconf]
  simp [hstatus, hstep]

/-- Witness for C4 with a confirmed intent left in status "requires_action". -/
theorem C4_witness :
    (stripeHandleSubmit { initialState with step := 3 }
        ⟨Except.ok ("cs_1", "pi_1"), Except.ok "pm_1", Except.ok "requires_action",
          Except.ok ()⟩).1.message = "Payment was not successful." :=
  (C4_nonsuccess_status _ _ "cs_1" "pi_1" "pm_1" "requires_action" rfl rfl rfl
    (by decide) rfl).2.1

/-- C10: every early error return of the Stripe flow (payment-method creation
error, confirmation error, or non-success intent status) leaves the identity
fields, the card fields, and the wizard step unchanged; with the state being
step, the two field groups, busy flag, message and message kind, only the
latter three can differ. -/
theorem C10_stripe_error_frame (st : AppState) (sb : StripeBehavior)
    (cs piid : String) (hint : sb.intentRes = Except.ok (cs, piid))
    (herr : (∃ m, sb.pmRes = Except.error m) ∨
            (∃ pm m, sb.pmRes = Except.ok pm ∧ sb.confirmRes = Except.error m) ∨
            (∃ pm status, sb.pmRes = Except.ok pm ∧ sb.confirmRes = Except.ok status ∧
              status ≠ "succeeded")) :
    (stripeHandleSubmit st sb).1.formData = st.formData ∧
    (stripeHandleSubmit st sb).1.paymentData = st.paymentData ∧
    (stripeHandleSubmit st sb).1.step = st.step := by
  unfold stripeHandleSubmit
  dsimp only
  rw [hint]
  rcases herr with ⟨m, hm⟩ | ⟨pm, m, hpm, hm⟩ | ⟨pm, status, hpm, hst, hne⟩
  · rw [hm]
    exact ⟨rfl, rfl, rfl⟩
  · rw [hpm, hm]
    exact ⟨rfl, rfl, rfl⟩
  · rw [hpm, hst]
    simp [hne]

/-- A filled step-3 state used by the C10 witness. -/
def c10State : AppState :=
  { initialState with
      step := 3
      formData := ⟨"Bo", "b@c.d", "777", "9"⟩ }

/-- Witness for C10: a rejected payment-method creation leaves the filled
identity fields in place. -/
theorem C10_witness :
    (stripeHandleSubmit c10State
      ⟨Except.ok ("cs_2", "pi_2"), Except.error "Your card number is invalid.",
        Except.ok "succeeded", Except.ok ()⟩).1.formData = ⟨"Bo", "b@c.d", "777", "9"⟩ :=
  (C10_stripe_error_frame _ _ "cs_2" "pi_2" rfl (Or.inl ⟨_, rfl⟩)).1

/-- The card numbers carried by the combined POSTs of a request list. -/
def postedCardNumbers (rs : List Request) : List String :=
  rs.filterMap fun r =>
    match r with
    | .createTransaction p => some p.card_details.card_number
    | _ => none

/-- Event trace reaching step 3 with a filled form whose card number fails the
Luhn check ("…4241"). -/
def c2SetupEvents : List Event :=
  [.setIdentity "full_name" "John Doe", .setIdentity "email" "j@x.com",
   .setIdentity "phone" "123", .setIdentity "amount" "5",
   .nextStep, .nextStep,
   .setPayment "card_number" "4242424242424241", .setPayment "expiry_month" "12",
   .setPayment "expiry_year" "2030", .setPayment "cvv" "123",
   .setPayment "cardholder_name" "JOHN"]

/-- The same trace followed by a submission with the backend reachable. -/
def c2Events : List Event := c2SetupEvents ++ [.submit ⟨true, Except.ok "TX1"⟩ 0]

/-- C2 counterexample: from the initial state the trace `c2Events` reaches
step 3 and its submission POSTs a payload carrying both identity and card
fields, although the card number "4242 4242 4242 4241" fails the Luhn check,
so the five-check local validation has not passed. -/
theorem C2_counterexample :
    (runEvents initialState c2SetupEvents).1.step = 3 ∧
    (runEvents initialState c2Events).2.countP isCombinedPost = 1 ∧
    postedCardNumbers (runEvents initialState c2Events).2 = ["4242 4242 4242 4241"] ∧
    luhnCheck (stripSpaces "4242 4242 4242 4241") = false ∧
    localValidationPassed (runEvents initialState c2SetupEvents).1.paymentData 2025 6
      = false := by
  exact ⟨by decide, by decide, by decide, by decide, by decide⟩

/-- C2 (amended): a payload carrying both IdentityFields and CardFields is
POSTed to the backend only from step 3 and only with the card-field presence
check having passed; the other four local checks (length, checksum, expiry,
CVV) are not required for the transmission. -/
theorem C2_combined_post_amended (st : AppState) (e : Event) (r : Request)
    (hr : r ∈ (stepApp st e).2) (hcomb : isCombinedPost r = true) :
    st.step = 3 ∧ presenceCheck st.paymentData = true := by
  rcases e with ⟨n, v⟩ | ⟨n, v⟩ | _ | _ | ⟨net, now⟩
  · simp only [stepApp] at hr
    split_ifs at hr <;> exact absurd hr (List.not_mem_nil r)
  · simp only [stepApp] at hr
    split_ifs at hr <;> exact absurd hr (List.not_mem_nil r)
  · simp only [stepApp] at hr
    split_ifs at hr <;> exact absurd hr (List.not_mem_nil r)
  · simp only [stepApp] at hr
    split_ifs at hr <;> exact absurd hr (List.not_mem_nil r)
  · simp only [stepApp] at hr
    split_ifs at hr with h3
    · refine ⟨h3, ?_⟩
      by_contra hp
      unfold handleSubmit at hr
      dsimp only at hr
      rw [if_pos (by simpa using hp)] at hr
      simp at hr
    · exact absurd hr (List.not_mem_nil r)

/-- A filled step-3 state used by the C2 witness. -/
def c2wState : AppState :=
  { initialState with
      step := 3
      paymentData := ⟨"visa", "4242 4242 4242 4242", "12", "2030", "123", "JN"⟩ }

/-- Witness for the amended C2 theorem: the combined POST emitted by a
successful submission from `c2wState` satisfies its hypotheses. -/
theorem C2_witness :
    c2wState.step = 3 ∧ presenceCheck c2wState.paymentData = true :=
  C2_combined_post_amended c2wState (Event.submit ⟨true, Except.ok "T9"⟩ 3)
    (Request.createTransaction (mkPayload { c2wState with loading := true, message := "" }))
    (by decide) rfl

end PaymentGateway



